import Mathlib

/-!
Shallow embedding of the pyndfd NDFD forecast-retrieval routines
(`pyndfd/ndfd.py`) together with theorems settling the claims about them.

Modelling conventions:
* Python float arithmetic is modelled by exact rationals (`ℚ`); the claims
  treated here concern control flow, rounding rules, index arithmetic and
  field presence, none of which depend on floating-point rounding noise.
* Python `datetime` values are modelled by integer counts of minutes
  (for `get_latest_forecast_time`) or hours (for the valid-time enumeration)
  since an arbitrary epoch; `%` on `ℤ` in Lean returns a non-negative
  remainder for a positive modulus, exactly like Python's `%`.
* Fallible Python code is modelled with `Option`/`Except PyErr`.
* `NaN` float sentinels (used by the weather translator for "no visibility")
  are modelled as `Option ℚ` with `none` playing the role of NaN; the
  source's `isnan` guards map directly onto the `Option` matches.
* Strings handled character-by-character (the packed-string decoder works on
  byte values, the weather translator on characters) are modelled as
  `List ℕ` byte lists and `List Char` respectively, with executable
  re-implementations of the Python `split`/`strip`/`lower`/`capitalize`
  primitives actually used by the source.
-/

namespace Pyndfd

/-! ## Python builtin helpers -/

/-- Python list indexing `l[i]`: a non-negative index is looked up directly,
a negative index `i` with `-len l ≤ i` wraps around and reads `l[len l + i]`
(the opposite edge), and anything else raises `IndexError` (here `none`).
This is the exact semantics of indexing a Python list or a numpy array axis. -/
def pyIndex {α : Type} (l : List α) (i : ℤ) : Option α :=
  if 0 ≤ i then l.get? i.toNat
  else if 0 ≤ i + (l.length : ℤ) then l.get? (i + (l.length : ℤ)).toNat
  else none

/-- Python 3 builtin `round` on a real quantity: round to the nearest integer,
ties going to the even integer (banker's rounding). -/
def pyRound (q : ℚ) : ℤ :=
  let f := ⌊q⌋
  if q - f < 1/2 then f
  else if 1/2 < q - f then f + 1
  else if f % 2 = 0 then f else f + 1

/-- Rounding to the nearest integer with ties going away from zero.  This is
the rounding rule named by the specification ("round-half-away-from-zero");
it is stated here only to be compared against `pyRound`. -/
def roundHalfAwayFromZero (q : ℚ) : ℤ :=
  if 0 ≤ q then ⌊q + 1/2⌋ else ⌈q - 1/2⌉

/-- Python exceptions that the embedded routines can raise. -/
inductive PyErr : Type where
  | indexError : PyErr
  | valueError : String → PyErr
  | runtimeError : String → PyErr
deriving DecidableEq

deriving instance DecidableEq for Except

/-- Python `l[i]` on a list accessed with a non-negative literal index, as used
by `parse_weather_string` on the colon-split fields: out-of-range raises
`IndexError`. -/
def pyGet {α : Type} (l : List α) (i : ℕ) : Except PyErr α :=
  match l.get? i with
  | some a => .ok a
  | none => .error .indexError

/-- Python `s.split(sep)` for a single-character separator: splitting the
empty string yields `[[]]`, and separators delimit (possibly empty) fields. -/
def splitOnSep {α : Type} [DecidableEq α] (sep : α) : List α → List (List α)
  | [] => [[]]
  | c :: cs =>
    if c = sep then [] :: splitOnSep sep cs
    else
      match splitOnSep sep cs with
      | [] => [[c]]
      | l :: ls => (c :: l) :: ls

/-- Does `l` start with the pattern `pat`? (helper for substring search). -/
def seqStartsWith {α : Type} [DecidableEq α] : List α → List α → Bool
  | [], _ => true
  | _ :: _, [] => false
  | p :: ps, c :: cs => p == c && seqStartsWith ps cs

/-- Python's substring containment `pat in l` (true for the empty pattern). -/
def hasSubSeq {α : Type} [DecidableEq α] (pat : List α) : List α → Bool
  | [] => seqStartsWith pat []
  | c :: cs => seqStartsWith pat (c :: cs) || hasSubSeq pat cs

/-! ## `std_dev` / `median` (ndfd.py lines 108-142) -/

/-- Python `min(vals)` for a non-empty list (the source only calls it under a
`len(vals) > 1` guard). -/
def listMin (l : List ℚ) : ℚ :=
  match l with
  | [] => 0
  | x :: xs => xs.foldl min x

/-- Python `max(vals)` for a non-empty list. -/
def listMax (l : List ℚ) : ℚ :=
  match l with
  | [] => 0
  | x :: xs => xs.foldl max x

/-- The square of `std_dev` (ndfd.py lines 108-123): the population variance
`sum((v - mean)^2) / len`.  The source returns `sqrt` of this; the square
root is irrational in general and is left delegated (no claim depends on the
numeric value of the standard deviation, only on when it is present). -/
def variance (vals : List ℚ) : ℚ :=
  let mean := vals.sum / (vals.length : ℚ)
  ((vals.map fun val => (val - mean) ^ 2).sum) / (vals.length : ℚ)

/-- `median` (ndfd.py lines 126-142): sort, take the middle element for odd
length, the mean of the two central elements for even length. -/
def median (vals : List ℚ) : ℚ :=
  let sorted_list := vals.mergeSort fun a b => decide (a ≤ b)
  let index := (vals.length - 1) / 2
  if vals.length % 2 = 1 then sorted_list.getD index 0
  else (sorted_list.getD index 0 + sorted_list.getD (index + 1) 0) / 2

/-! ## `get_latest_forecast_time` (ndfd.py lines 145-159) -/

/-- `CACHE_SERVER_BUFFER_MIN` (ndfd.py line 64). -/
def CACHE_SERVER_BUFFER_MIN : ℤ := 20

/-- `get_latest_forecast_time` (ndfd.py lines 145-159).  `now` is the current
UTC wall-clock time in minutes since an epoch; the result is the forecast
cycle in the same unit (truncation of seconds and microseconds is below the
resolution of this model and does not affect the minute arithmetic).  If the
current minute-of-hour is at most the buffer, one hour is subtracted before
truncating to the hour. -/
def get_latest_forecast_time (now : ℤ) : ℤ :=
  let latest := if now % 60 ≤ CACHE_SERVER_BUFFER_MIN then now - 60 else now
  latest - latest % 60

/-! ## `get_variable` (ndfd.py lines 162-211) -/

/-- The variable declaration table `DEFS["vars"]`: an association list from
area name to its sub-resolution groups, each a `(vp, variable names)` pair.
The concrete table lives in the `ndfd_defs` module; `get_variable` only ever
queries it through membership tests, so it is a parameter here. -/
structure NdfdDefs : Type where
  vars : List (String × List (String × List String))

/-- Python `DEFS["vars"][area]` guarded by `area in DEFS["vars"]`. -/
def lookupArea (defs : NdfdDefs) (area : String) : Option (List (String × List String)) :=
  (defs.vars.find? fun p => p.1 == area).map (·.2)

/-- The relative cache path `NDFD_DIR.format(area, vp) + NDFD_VAR.format(var)`
(ndfd.py lines 69-71, with `path.sep` written `/`). -/
def ndfdVarPath (area vp var : String) : String :=
  "DC.ndfd/AR." ++ area ++ "/VP." ++ vp ++ "/ds." ++ var ++ ".bin"

/-- `get_variable` (ndfd.py lines 162-211).  The directory bookkeeping and the
network fetch are I/O; their observable effect on the return value is whether
the local file exists after the fetch attempt, abstracted as the `fetched`
oracle.  Unknown area raises `ValueError("Invalid Area: ...")`; for a known
area each sub-resolution group containing the variable contributes its cache
path, and a missing file after the fetch raises `RuntimeError`. -/
def get_variable (fetched : String → Bool) (defs : NdfdDefs) (var area : String) :
    Except PyErr (List String) :=
  match lookupArea defs area with
  | none => .error (.valueError ("Invalid Area: " ++ area))
  | some groups =>
    groups.foldlM
      (fun gribs g =>
        if var ∈ g.2 then
          if fetched (ndfdVarPath area g.1 var) then .ok (gribs ++ [ndfdVarPath area g.1 var])
          else .error (.runtimeError
            "Cannot retrieve NDFD variables at this time. Try again in a moment.")
        else .ok gribs)
      []

/-! ## `get_nearest_grid_point` (ndfd.py lines 295-338) -/

/-- A decoded grib message as consumed by `get_nearest_grid_point`: the
geographic first-grid-point coordinate, the four optional per-axis spacing
keys, and the projection collaborator (`pyproj.Proj`) in forward and inverse
direction.  `proj` maps `(lon, lat)` to planar `(x, y)`; `projInv` maps
planar `(x, y)` back to `(lon, lat)`. -/
structure GridMessage : Type where
  lonFirst : ℚ
  latFirst : ℚ
  DxInMetres : Option ℚ
  DyInMetres : Option ℚ
  DiInMetres : Option ℚ
  DjInMetres : Option ℚ
  proj : ℚ → ℚ → ℚ × ℚ
  projInv : ℚ → ℚ → ℚ × ℚ

/-- The spacing-key selection of ndfd.py lines 327-331: the
`DxInMetres`/`DyInMetres` pair is used unless *both* keys are absent, in
which case `DiInMetres`/`DjInMetres` is used. -/
def spacingPair (grb : GridMessage) : Option ℚ × Option ℚ :=
  if grb.DxInMetres.isSome || grb.DyInMetres.isSome then (grb.DxInMetres, grb.DyInMetres)
  else (grb.DiInMetres, grb.DjInMetres)

/-- `get_nearest_grid_point` (ndfd.py lines 295-338): project the first grid
point and the query point to planar coordinates, divide the delta by the
per-axis spacing and round with the builtin `round`, then reproject the
integer-indexed planar point.  Returns
`(x, y, grid_x, grid_y, g_lat, g_lon)`; `none` models the `KeyError` raised
when the selected spacing key is missing from the message. -/
def get_nearest_grid_point (grb : GridMessage) (lat lon : ℚ) :
    Option (ℤ × ℤ × ℚ × ℚ × ℚ × ℚ) :=
  let o := grb.proj grb.lonFirst grb.latFirst
  let gpt := grb.proj lon lat
  match spacingPair grb with
  | (some dx, some dy) =>
    let x := pyRound ((gpt.1 - o.1) / dx)
    let y := pyRound ((gpt.2 - o.2) / dy)
    let gl := grb.projInv ((x : ℚ) * dx + o.1) ((y : ℚ) * dy + o.2)
    some (x, y, gpt.1, gpt.2, gl.2, gl.1)
  | _ => none

/-! ## Valid-time enumeration (ndfd.py lines 419-430 and 775-786) -/

/-- Minute-of-hour-zero forecast cycle minus its hour-of-day:
`analysis["forecastTime"] - timedelta(hours=analysis["forecastTime"].hour)`.
`ft` is the forecast cycle in whole hours since an epoch that starts at
midnight UTC, so `ft % 24` is the cycle's hour-of-day. -/
def dayStart (ft : ℤ) : ℤ := ft - ft % 24

/-- Python `range(0, 250, time_step)` for `time_step ≥ 1`: the multiples of
`time_step` below 250 in increasing order. -/
def candOffsets (step : ℕ) : List ℕ :=
  (List.range (249 / step + 1)).map (· * step)

/-- The `min_time` skip guard: `min_time is not None and t < min_time`. -/
def beforeMin (minT : Option ℤ) (t : ℤ) : Bool :=
  match minT with
  | some m => decide (t < m)
  | none => false

/-- The `max_time` break guard: `max_time is not None and t > max_time`. -/
def afterMax (maxT : Option ℤ) (t : ℤ) : Bool :=
  match maxT with
  | some mx => decide (mx < t)
  | none => false

/-- The loop body of ndfd.py lines 420-430: walk the candidate times in
order, `continue` past any time before `min_time`, and `break` at the first
time after `max_time`. -/
def validLoop (minT maxT : Option ℤ) : List ℤ → List ℤ
  | [] => []
  | t :: rest =>
    if beforeMin minT t then validLoop minT maxT rest
    else if afterMax maxT t then []
    else t :: validLoop minT maxT rest

/-- The `valid_times` list built by `get_forecast_analysis` (ndfd.py lines
419-430) and identically by `get_weather_analysis` (lines 775-786): candidate
times step from the cycle's day start in `time_step`-hour increments through
hour offset 249, filtered by the skip/break loop. -/
def validTimes (ft : ℤ) (step : ℕ) (minT maxT : Option ℤ) : List ℤ :=
  validLoop minT maxT ((candOffsets step).map fun h : ℕ => dayStart ft + (h : ℤ))

/-! ## Neighborhood collection (ndfd.py lines 468-503) -/

/-- `grb.values[y][x]` with Python/numpy indexing on both axes. -/
def readCell {α : Type} (values : List (List α)) (y x : ℤ) : Option α :=
  match pyIndex values y with
  | some row => pyIndex row x
  | none => none

/-- Sequence a list of fallible reads, failing at the first `none` — the
Python loop raises `IndexError` at the first out-of-range access. -/
def optMapM {α β : Type} (f : α → Option β) : List α → Option (List β)
  | [] => some []
  | a :: as =>
    match f a, optMapM f as with
    | some b, some bs => some (b :: bs)
    | _, _ => none

/-- `range(min(n, -n), max(n, -n) + 1)` for `n ≥ 0`: the offsets `-n .. n`. -/
def offsets (n : ℕ) : List ℤ :=
  (List.range (2 * n + 1)).map fun k : ℕ => (k : ℤ) - (n : ℤ)

/-- The iteration order of the nested loops of ndfd.py lines 483-484: outer
offset `i` (x axis), inner offset `j` (y axis). -/
def offsetPairs (n : ℕ) : List (ℤ × ℤ) :=
  (offsets n).flatMap fun i => (offsets n).map fun j => (i, j)

/-- The `vals` list collected by ndfd.py lines 468-498: for `n = 0` the single
nearest cell, otherwise the full `(2n+1) × (2n+1)` window read as
`grb.values[y + j][x + i]`; `none` models the `IndexError` that line 499
converts into the out-of-bounds `ValueError`.  (The masked-value→NaN
substitution changes values, never presence, and is omitted.) -/
def collectNeighborhood {α : Type} (values : List (List α)) (x y : ℤ) (n : ℕ) :
    Option (List α) :=
  if n = 0 then
    match readCell values y x with
    | some v => some [v]
    | none => none
  else optMapM (fun ij => readCell values (y + ij.2) (x + ij.1)) (offsetPairs n)

/-- The aggregate statistics block of a per-hour forecast record
(ndfd.py lines 507-514); `variance` stands for the square of `stdDev`. -/
structure Stats : Type where
  points : ℕ
  min : ℚ
  max : ℚ
  mean : ℚ
  median : ℚ
  variance : ℚ
  sum : ℚ

/-- A per-hour forecast record: the nearest value is always present, the
aggregate statistics only sometimes (ndfd.py lines 505-514). -/
structure Forecast : Type where
  nearest : ℚ
  stats : Option Stats

/-- Construction of the per-hour forecast record (ndfd.py lines 505-514): the
statistics fields are set exactly when `len(vals) > 1`. -/
def mkForecast (vals : List ℚ) (nearest_val : ℚ) : Forecast :=
  { nearest := nearest_val
    stats :=
      if 1 < vals.length then
        some
          { points := vals.length
            min := listMin vals
            max := listMax vals
            mean := vals.sum / (vals.length : ℚ)
            median := median vals
            variance := variance vals
            sum := vals.sum }
      else none }

/-! ## `unpack_string` (ndfd.py lines 552-587) -/

/-- The big-endian integer built from the raw byte string (line 565). -/
def bytesToInt (raw : List ℕ) : ℕ :=
  raw.foldl (fun acc b => acc * 256 + b) 0

/-- `num_bytes` of line 563: `(len(raw) * 8 - 1) // 7` (the count of 7-bit
groups extracted; meaningful for non-empty input). -/
def numBytes (raw : List ℕ) : ℕ := (raw.length * 8 - 1) / 7

/-- `remainder` of line 563: `(len(raw) * 8 - 1) % 7`, shifted off the low
end of the integer before extraction. -/
def remBits (raw : List ℕ) : ℕ := (raw.length * 8 - 1) % 7

/-- The 7-bit groups pulled off the least-significant end of the integer, in
extraction order (lines 570-576 before the final reverse). -/
def extractGroups : ℕ → ℕ → List ℕ
  | _, 0 => []
  | i, k + 1 => (i % 128) :: extractGroups (i / 128) k

/-- The character contributed by one 7-bit group (lines 571-575): `0` becomes
a newline, a printable ASCII value stands for itself, anything else
contributes nothing at all. -/
def groupChar (b : ℕ) : Option ℕ :=
  if b = 0 then some 10
  else if 32 ≤ b ∧ b ≤ 126 then some b
  else none

/-- The decoded text `msg` (lines 569-578): groups mapped through
`groupChar`, dropped groups vanishing, then reversed into reading order. -/
def msgCodes (raw : List ℕ) : List ℕ :=
  ((extractGroups (bytesToInt raw >>> remBits raw) (numBytes raw)).filterMap groupChar).reverse

/-- Python `str.splitlines` restricted to `\n` (the only line break the
decoder can produce): like splitting on `\n` but with no trailing empty line
and with `[]` for the empty text. -/
def pySplitlines (l : List ℕ) : List (List ℕ) :=
  if l = [] then []
  else if l.getLast? = some 10 then (splitOnSep 10 l).dropLast
  else splitOnSep 10 l

/-- The byte values of the placeholder token `"<None>"`. -/
def noneTokN : List ℕ := [60, 78, 111, 110, 101, 62]

/-- The line filter of ndfd.py lines 582-584: length at least 4 and
(at least 4 colon characters, or at least one period, or containing
`"<None>"`).  `58`, `46` are the byte values of `:` and `.`. -/
def lineKept (line : List ℕ) : Bool :=
  decide (4 ≤ line.length) &&
    (decide (4 ≤ line.count 58) || decide (1 ≤ line.count 46) || hasSubSeq noneTokN line)

/-- The claim's reading of the filter: "at least 4 colon-separated fields",
i.e. at least 3 colon characters.  Stated from the claim's words, to be
compared with `lineKept`. -/
def claimFieldsKept (line : List ℕ) : Bool :=
  decide (4 ≤ line.length) &&
    (decide (4 ≤ line.count 58 + 1) || decide (1 ≤ line.count 46) || hasSubSeq noneTokN line)

/-- The amended filter: "at least 5 colon-separated fields", i.e. at least 4
colon characters.  Stated from the amended claim's words. -/
def amendedFieldsKept (line : List ℕ) : Bool :=
  decide (4 ≤ line.length) &&
    (decide (5 ≤ line.count 58 + 1) || decide (1 ≤ line.count 46) || hasSubSeq noneTokN line)

/-- `unpack_string` (ndfd.py lines 552-587), as the list of retained code
lines of the decoded text. -/
def unpack_string (raw : List ℕ) : List (List ℕ) :=
  (pySplitlines (msgCodes raw)).filter lineKept

/-! ## `parse_weather_string` (ndfd.py lines 590-697)

The code tables `DEFS["wx"]` live in the `ndfd_defs` module, which is not
part of the source tree here.  Modelled from the spec: the spec's reference
behavior (`parse_weather("Lkly:A:-:0SM:LgA")` yields
`("Light hail likely with large hail", 0.0)`) pins the entries below; all
other lookups fall through to the warn-and-skip branch exactly as unknown
codes do in the source. -/

/-- Modelled from the spec: coverage code table `DEFS["wx"]["coverage"]`
(no entry of it is pinned by the spec's reference behavior). -/
def wxCoverage : List (List Char × List Char) := []

/-- Modelled from the spec: intensity code table `DEFS["wx"]["intensity"]`
(`"-"` ↦ `"light"`, pinned by the spec's reference behavior). -/
def wxIntensity : List (List Char × List Char) := [("-".toList, "light".toList)]

/-- Modelled from the spec: weather-type code table `DEFS["wx"]["weather"]`
(`"A"` ↦ `"hail"`, pinned by the spec's reference behavior). -/
def wxWeather : List (List Char × List Char) := [("A".toList, "hail".toList)]

/-- Modelled from the spec: hazard code table `DEFS["wx"]["hazards"]`
(`"LgA"` ↦ `"large hail"`, pinned by the spec's reference behavior). -/
def wxHazards : List (List Char × List Char) := [("LgA".toList, "large hail".toList)]

/-- Modelled from the spec: attribute code table `DEFS["wx"]["attributes"]`
(no entry of it is pinned by the spec's reference behavior). -/
def wxAttributes : List (List Char × List Char) := []

/-- Modelled from the spec: visibility code table `DEFS["wx"]["visibility"]`
(`"0SM"` ↦ `0.0`, pinned by the spec's reference behavior). -/
def wxVisibility : List (List Char × ℚ) := [("0SM".toList, 0)]

/-- Dictionary membership + lookup, `k in tbl` / `tbl[k]`. -/
def tblLookup {β : Type} (tbl : List (List Char × β)) (k : List Char) : Option β :=
  (tbl.find? fun p => p.1 == k).map (·.2)

def noCovTok : List Char := "<NoCov>".toList
def lklyTok : List Char := "Lkly".toList
def noIntenTok : List Char := "<NoInten>".toList
def noWxTok : List Char := "<NoWx>".toList
def noVisTok : List Char := "<NoVis>".toList
def noneTokC : List Char := "<None>".toList
def mentionTok : List Char := "Mention".toList
def primaryTok : List Char := "Primary".toList
def orTok : List Char := "OR".toList

/-- One step of the attribute loop (ndfd.py lines 651-664): empty, `<None>`
or `Mention` attributes are skipped, `Primary`/`OR` set their flags, hazard
codes append `"with <hazard> "`, attribute codes append their phrase, and
unknown codes warn and are skipped. -/
def attrStep (s : List Char × Bool × Bool) (attr : List Char) : List Char × Bool × Bool :=
  let (ws, pp, oo) := s
  if attr = [] || hasSubSeq noneTokC attr || hasSubSeq mentionTok attr then (ws, pp, oo)
  else if attr = primaryTok then (ws, true, oo)
  else if attr = orTok then (ws, pp, true)
  else
    match tblLookup wxHazards attr with
    | some h => (ws ++ "with ".toList ++ h ++ [' '], pp, oo)
    | none =>
      match tblLookup wxAttributes attr with
      | some a => (ws ++ a ++ [' '], pp, oo)
      | none => (ws, pp, oo)

/-- Python `str.lower` (ASCII suffices for the table phrases). -/
def pyLower (l : List Char) : List Char := l.map Char.toLower

/-- Python `str.strip`. -/
def pyStrip (l : List Char) : List Char :=
  ((l.dropWhile Char.isWhitespace).reverse.dropWhile Char.isWhitespace).reverse

/-- Python `str.capitalize`: first character upper-cased, the rest
lower-cased. -/
def pyCapitalize (l : List Char) : List Char :=
  match l with
  | [] => []
  | c :: cs => c.toUpper :: cs.map Char.toLower

/-- The per-event text/flags/visibility of one caret-separated word
(ndfd.py lines 610-664 and 678-685): the five colon-separated fields are
read positionally — Python raises `IndexError` at the first missing index,
and every such failure is the same `IndexError`, so the five accesses are
checked together — then coverage, intensity, weather, the `likely` marker
and the attributes build the event text `ws` in source order, and the
visibility field resolves to a value or to NaN (`none`). -/
def wordText (word : List Char) :
    Except PyErr (List Char × Bool × Bool × Option ℚ) :=
  let entries := splitOnSep ':' word
  match entries.get? 0, entries.get? 1, entries.get? 2, entries.get? 3, entries.get? 4 with
  | some coverage, some weather, some intensity, some vis, some e4 =>
    let attrs := splitOnSep ',' e4
    let likely := !hasSubSeq noCovTok coverage && hasSubSeq lklyTok coverage
    let ws1 : List Char :=
      if hasSubSeq noCovTok coverage then []
      else if hasSubSeq lklyTok coverage then []
      else
        match tblLookup wxCoverage coverage with
        | some txt => txt ++ [' ']
        | none => []
    let ws2 :=
      if hasSubSeq noIntenTok intensity then ws1
      else
        match tblLookup wxIntensity intensity with
        | some txt => ws1 ++ txt ++ [' ']
        | none => ws1
    let ws3 :=
      if hasSubSeq noWxTok weather then ws2
      else
        match tblLookup wxWeather weather with
        | some txt => ws2 ++ txt ++ [' ']
        | none => ws2
    let ws4 := if likely then ws3 ++ "likely ".toList else ws3
    let r := attrs.foldl attrStep (ws4, false, false)
    let visVal : Option ℚ :=
      if hasSubSeq noVisTok vis then none
      else
        match tblLookup wxVisibility vis with
        | some q => some q
        | none => none
    .ok (r.1, r.2.1, r.2.2, visVal)
  | _, _, _, _, _ => .error .indexError

/-- Joining one event's text onto the accumulated phrase
(ndfd.py lines 666-676). -/
def combinePhrase (acc ws : List Char) (pp oo : Bool) : List Char :=
  if acc.length = 0 then ws
  else if pp && oo then ws ++ "or ".toList ++ pyLower acc
  else if pp then ws ++ "and ".toList ++ pyLower acc
  else if oo then acc ++ "or ".toList ++ pyLower ws
  else acc ++ "and ".toList ++ pyLower ws

/-- The running-minimum update of the visibility (ndfd.py lines 687-690),
with `none` playing the role of NaN. -/
def updateVis (visibility vis : Option ℚ) : Option ℚ :=
  match vis, visibility with
  | some v, none => some v
  | some v, some cur => if v < cur then some v else some cur
  | none, cur => cur

/-- One iteration of the word loop: event text/flags/visibility, then the
phrase join and the visibility update. -/
def processWord (acc : List Char × Option ℚ) (word : List Char) :
    Except PyErr (List Char × Option ℚ) :=
  match wordText word with
  | .error e => .error e
  | .ok (ws, pp, oo, visVal) => .ok (combinePhrase acc.1 ws pp oo, updateVis acc.2 visVal)

/-- The final phrase fixup (ndfd.py lines 692-695): the `"<NoWx>"`
placeholder for an empty phrase, otherwise strip and capitalize. -/
def finalPhrase (ws : List Char) : List Char :=
  if ws.length = 0 then noWxTok else pyCapitalize (pyStrip ws)

/-- `parse_weather_string` (ndfd.py lines 590-697): fold the caret-separated
events through `processWord`, then apply the final phrase fixup.  Returns
the phrase and the visibility (`none` = NaN). -/
def parse_weather_string (wx : List Char) : Except PyErr (List Char × Option ℚ) :=
  match (splitOnSep '^' wx).foldlM processWord ([], none) with
  | .error e => .error e
  | .ok (ws, vis) => .ok (finalPhrase ws, vis)

/-- Decidable form of "no event of this weather string contributes any phrase
text": every caret-separated word whose field read succeeds yields an empty
event text. -/
def eventsTextless (wx : List Char) : Bool :=
  (splitOnSep '^' wx).all fun w =>
    match wordText w with
    | .ok r => r.1 == []
    | .error _ => true

/-! ## Concrete inputs used by the theorems -/

/-- A 3 × 3 value grid with pairwise distinct entries. -/
def grid3 : List (List ℕ) := [[0, 1, 2], [3, 4, 5], [6, 7, 8]]

/-- The 7-byte packed encoding of the single line `"a:b:c:d"` (7 groups of 7
bits, shifted left by the remainder 6). -/
def rawAbcd : List ℕ := [97, 117, 137, 214, 55, 89, 0]

/-- The byte values of the line `"a:b:c:d"`: 4 colon-separated fields. -/
def lineAbcd : List ℕ := [97, 58, 98, 58, 99, 58, 100]

/-- The weather code `"<NoCov>:<NoWx>:<NoInten>:<NoVis>:"`. -/
def noCovInput : List Char := "<NoCov>:<NoWx>:<NoInten>:<NoVis>:".toList

/-- The weather code `"<NoCov>:<NoWx>:<NoInten>:0SM:"`: no event text, but a
resolvable visibility field. -/
def noCovVisInput : List Char := "<NoCov>:<NoWx>:<NoInten>:0SM:".toList

/-- A one-group declaration table for the `get_variable` witnesses. -/
def defs0 : NdfdDefs := ⟨[("conus", [("001-003", ["apt"])])]⟩

/-- A grid message with the identity projection, first grid point at the
planar origin and unit cell spacing, so the normalized planar delta equals
the query coordinate itself. -/
def msgId : GridMessage :=
  { lonFirst := 0
    latFirst := 0
    DxInMetres := some 1
    DyInMetres := some 1
    DiInMetres := none
    DjInMetres := none
    proj := fun a b => (a, b)
    projInv := fun a b => (a, b) }

/-- The specification-side contract of the grid locator, written from the
amended claim's words: the call succeeds, reports the projected planar query
coordinates, and each integer cell index is a nearest integer of the
spacing-normalized planar delta, with ties resolved to the even integer. -/
def nearestRoundSpec (grb : GridMessage) (lat lon dx dy : ℚ) : Prop :=
  ∃ x y gx gy glat glon,
    get_nearest_grid_point grb lat lon = some (x, y, gx, gy, glat, glon) ∧
    gx = (grb.proj lon lat).1 ∧ gy = (grb.proj lon lat).2 ∧
    |(x : ℚ) - (gx - (grb.proj grb.lonFirst grb.latFirst).1) / dx| ≤ 1/2 ∧
    ((gx - (grb.proj grb.lonFirst grb.latFirst).1) / dx
        - ⌊(gx - (grb.proj grb.lonFirst grb.latFirst).1) / dx⌋ = 1/2 → x % 2 = 0) ∧
    |(y : ℚ) - (gy - (grb.proj grb.lonFirst grb.latFirst).2) / dy| ≤ 1/2 ∧
    ((gy - (grb.proj grb.lonFirst grb.latFirst).2) / dy
        - ⌊(gy - (grb.proj grb.lonFirst grb.latFirst).2) / dy⌋ = 1/2 → y % 2 = 0)

/-! ## Helper lemmas -/

theorem length_filterMap_isSome {α β : Type} (f : α → Option β) (l : List α) :
    (l.filterMap f).length = l.countP fun a => (f a).isSome := by
  induction l with
  | nil => rfl
  | cons a as ih =>
    cases h : f a <;> simp [List.filterMap_cons, h, List.countP_cons, ih]

theorem extractGroups_length (i k : ℕ) : (extractGroups i k).length = k := by
  induction k generalizing i with
  | zero => rfl
  | succ k ih => simp [extractGroups, ih]

theorem groupChar_isSome (b : ℕ) :
    (groupChar b).isSome = (b == 0 || (decide (32 ≤ b) && decide (b ≤ 126))) := by
  unfold groupChar
  split_ifs with h1 h2 <;> simp_all

theorem lineKept_eq_amended (line : List ℕ) : lineKept line = amendedFieldsKept line := by
  have h : decide (5 ≤ line.count 58 + 1) = decide (4 ≤ line.count 58) := by
    rw [decide_eq_decide]
    omega
  rw [lineKept, amendedFieldsKept, h]

theorem optMapM_length {α β : Type} (f : α → Option β) :
    ∀ (l : List α) (l' : List β), optMapM f l = some l' → l'.length = l.length := by
  intro l
  induction l with
  | nil =>
    intro l' h
    simp only [optMapM, Option.some.injEq] at h
    simp [← h]
  | cons a as ih =>
    intro l' h
    unfold optMapM at h
    cases hf : f a with
    | none => rw [hf] at h; simp at h
    | some b =>
      cases hm : optMapM f as with
      | none => rw [hf, hm] at h; simp at h
      | some bs =>
        rw [hf, hm] at h
        simp only [Option.some.injEq] at h
        simp [← h, ih bs hm]

theorem sum_map_const {α : Type} (l : List α) (c : ℕ) :
    (l.map fun _ => c).sum = l.length * c := by
  induction l with
  | nil => simp
  | cons a as ih => simp [ih, Nat.succ_mul, Nat.add_comm]

theorem offsetPairs_length (n : ℕ) : (offsetPairs n).length = (2 * n + 1) ^ 2 := by
  have hoff : (offsets n).length = 2 * n + 1 := by
    unfold offsets
    rw [List.length_map, List.length_range]
  rw [offsetPairs, List.length_flatMap]
  have h1 : List.map (List.length ∘ fun i => (offsets n).map fun j => (i, j)) (offsets n)
      = List.map (fun _ => 2 * n + 1) (offsets n) := by
    apply List.map_congr_left
    intro a _
    simp [Function.comp, hoff]
  rw [h1, sum_map_const, hoff]
  ring

/-! ## C1 — out-of-bounds neighborhood windows -/

/-- C1: the claim fails on the code.  A `3 × 3` window centered on the grid
point `(x, y) = (0, 0)` of a `3 × 3` array extends below index 0 on both
axes, yet `get_forecast_analysis`'s neighborhood loop does not raise the
out-of-bounds error: Python's negative indexing silently reads the opposite
edge (the window cell at offset `(-1, -1)` reads `values[2][2] = 8`), so the
loop succeeds and returns wrapped values.  Only a window crossing the upper
edge (here centered at `(2, 2)`) raises the `IndexError` that becomes the
out-of-bounds `ValueError`. -/
theorem C1_negative_window_wraps :
    collectNeighborhood grid3 0 0 1 = some [8, 2, 5, 6, 0, 3, 7, 1, 4] ∧
    readCell grid3 (-1) (-1) = some 8 ∧
    collectNeighborhood grid3 2 2 1 = none := by decide

/-! ## C4 — the decoded-line filter of `unpack_string` -/

/-- C4 counterexample: the packed bytes `rawAbcd` decode to the single line
`"a:b:c:d"`, which has 4 colon-separated fields (3 colons), length ≥ 4, no
period and no `"<None>"`.  The claim's filter retains it, but
`unpack_string` drops it (the code requires at least 4 colon characters,
i.e. 5 fields). -/
theorem C4_counterexample :
    pySplitlines (msgCodes rawAbcd) = [lineAbcd] ∧
    claimFieldsKept lineAbcd = true ∧
    unpack_string rawAbcd = [] := by decide

/-- C4 (amended): a line of the decoded text is retained in the returned
code list if and only if it is at least 4 characters long and (it contains
at least 5 colon-separated fields, or at least one period, or the literal
placeholder token `"<None>"`). -/
theorem C4_line_filter (raw line : List ℕ) :
    line ∈ unpack_string raw ↔
      line ∈ pySplitlines (msgCodes raw) ∧ amendedFieldsKept line = true := by
  rw [unpack_string, List.mem_filter, lineKept_eq_amended]

/-! ## C5 — the forecast cycle -/

theorem glft_eq (now : ℤ) :
    get_latest_forecast_time now =
      if now % 60 ≤ 20 then now - 60 - (now - 60) % 60 else now - now % 60 := by
  simp only [get_latest_forecast_time, CACHE_SERVER_BUFFER_MIN]
  split_ifs <;> rfl

/-- C5: `get_latest_forecast_time` returns the current UTC time truncated to
the hour (`60 * (now / 60)` in minutes), except that when the minute-of-hour
is within the freshness buffer (`≤ 20`) the previous hour is returned; in
particular minute 1 rolls back one hour and minute 30 does not. -/
theorem C5_forecast_cycle (now : ℤ) :
    (now % 60 ≤ 20 → get_latest_forecast_time now = 60 * (now / 60) - 60) ∧
    (20 < now % 60 → get_latest_forecast_time now = 60 * (now / 60)) ∧
    (now % 60 = 1 → get_latest_forecast_time now = 60 * (now / 60) - 60) ∧
    (now % 60 = 30 → get_latest_forecast_time now = 60 * (now / 60)) := by
  have h := glft_eq now
  refine ⟨fun h1 => ?_, fun h1 => ?_, fun h1 => ?_, fun h1 => ?_⟩ <;>
    rw [h] <;> split_ifs <;> omega

/-- C5 witness: at minute 1 (61 minutes past the epoch hour boundary) the
cycle rolls back a full hour; at minute 30 it truncates in place. -/
theorem C5_witness :
    get_latest_forecast_time 61 = 0 ∧ get_latest_forecast_time 90 = 60 := by
  constructor
  · have h := (C5_forecast_cycle 61).2.2.1 (by decide)
    omega
  · have h := (C5_forecast_cycle 90).2.2.2 (by decide)
    omega

/-! ## C6 — presence of the aggregate statistics -/

/-- C6: the aggregate statistics block of a per-hour forecast record is
present if and only if more than one neighborhood value was collected; with
neighborhood radius 0 exactly one value is collected and no statistics field
is present, and with radius `n ≥ 1` all `(2n+1)^2` window values are
collected and the statistics are present. -/
theorem C6_stats_presence (values : List (List ℚ)) (x y : ℤ) (n : ℕ)
    (vals : List ℚ) (nv : ℚ)
    (h : collectNeighborhood values x y n = some vals) :
    ((mkForecast vals nv).stats.isSome ↔ 1 < vals.length) ∧
    (n = 0 → vals.length = 1 ∧ (mkForecast vals nv).stats = none) ∧
    (0 < n → vals.length = (2 * n + 1) ^ 2 ∧ (mkForecast vals nv).stats.isSome) := by
  have hiff : (mkForecast vals nv).stats.isSome ↔ 1 < vals.length := by
    rw [mkForecast]
    split_ifs with hlen <;> simp [hlen]
  refine ⟨hiff, fun hn => ?_, fun hn => ?_⟩
  · subst hn
    rw [collectNeighborhood, if_pos rfl] at h
    cases hr : readCell values y x with
    | none => rw [hr] at h; simp at h
    | some v =>
      rw [hr] at h
      simp only [Option.some.injEq] at h
      have hv : vals = [v] := h.symm
      subst hv
      exact ⟨rfl, by simp [mkForecast]⟩
  · have hn0 : n ≠ 0 := by omega
    rw [collectNeighborhood, if_neg hn0] at h
    have hlen := optMapM_length _ _ _ h
    rw [offsetPairs_length] at hlen
    refine ⟨hlen, hiff.mpr ?_⟩
    rw [hlen]
    have h3 : 3 ≤ 2 * n + 1 := by omega
    nlinarith

/-- C6 witness: a radius-0 collection over a 1 × 1 grid yields exactly one
value and a record with no statistics block. -/
theorem C6_witness :
    ((mkForecast [(1 : ℚ)] 1).stats.isSome ↔ 1 < ([(1 : ℚ)]).length) ∧
    ((0 : ℕ) = 0 → ([(1 : ℚ)]).length = 1 ∧ (mkForecast [(1 : ℚ)] 1).stats = none) ∧
    (0 < (0 : ℕ) → ([(1 : ℚ)]).length = (2 * 0 + 1) ^ 2 ∧
      (mkForecast [(1 : ℚ)] 1).stats.isSome) :=
  C6_stats_presence [[(1 : ℚ)]] 0 0 0 [1] 1 (by decide)

/-! ## C7 — `get_variable` error behavior -/

theorem get_variable_skip (fetched : String → Bool) (var area : String) :
    ∀ (groups : List (String × List String)) (acc : List String),
      (∀ g ∈ groups, var ∉ g.2) →
      (groups.foldlM
        (fun gribs g =>
          if var ∈ g.2 then
            if fetched (ndfdVarPath area g.1 var) then .ok (gribs ++ [ndfdVarPath area g.1 var])
            else .error (.runtimeError
              "Cannot retrieve NDFD variables at this time. Try again in a moment.")
          else .ok gribs)
        acc : Except PyErr (List String)) = .ok acc := by
  intro groups
  induction groups with
  | nil => intro acc _; rfl
  | cons g gs ih =>
    intro acc hall
    have hg : var ∉ g.2 := hall g (by simp)
    rw [List.foldlM_cons, if_neg hg]
    exact ih acc fun g' hg' => hall g' (by simp [hg'])

/-- C7: `get_variable` raises `ValueError("Invalid Area: ...")` when the
requested area is not in the declaration table, and returns the empty list
without raising when the area is known but the variable appears in none of
its sub-resolution groups (regardless of what the fetch oracle does). -/
theorem C7_get_variable (fetched : String → Bool) (defs : NdfdDefs) (var area : String) :
    (lookupArea defs area = none →
      get_variable fetched defs var area = .error (.valueError ("Invalid Area: " ++ area))) ∧
    (∀ groups, lookupArea defs area = some groups →
      (∀ g ∈ groups, var ∉ g.2) →
      get_variable fetched defs var area = .ok []) := by
  constructor
  · intro h
    rw [get_variable, h]
  · intro groups h hall
    rw [get_variable, h]
    exact get_variable_skip fetched var area groups [] hall

/-- C7 witness: with a table declaring only `conus → {001-003 → {apt}}`, an
unknown area raises the invalid-area error and a known area with an
undeclared variable yields the empty list. -/
theorem C7_witness :
    get_variable (fun _ => true) defs0 "apt" "guam" =
      .error (.valueError ("Invalid Area: " ++ "guam")) ∧
    get_variable (fun _ => true) defs0 "wx" "conus" = .ok [] :=
  ⟨(C7_get_variable (fun _ => true) defs0 "apt" "guam").1 (by decide),
   (C7_get_variable (fun _ => true) defs0 "wx" "conus").2 [("001-003", ["apt"])]
     (by decide) (by decide)⟩

/-! ## C10 — silently discarded 7-bit groups -/

/-- C10: the decoded character count of `unpack_string`'s bitstream equals
the number of extracted 7-bit groups whose value is 0 or printable
(32..126); groups outside that set contribute nothing, so the count is at
most `⌊(8·len − 1)/7⌋` and can be strictly smaller, as on the single byte
`0x01`, whose one group (value 1) is discarded entirely. -/
theorem C10_decoded_length :
    (∀ raw : List ℕ, raw ≠ [] →
      (msgCodes raw).length =
        (extractGroups (bytesToInt raw >>> remBits raw) (numBytes raw)).countP
          (fun b => b == 0 || (decide (32 ≤ b) && decide (b ≤ 126))) ∧
      (msgCodes raw).length ≤ numBytes raw ∧
      numBytes raw = (8 * raw.length - 1) / 7) ∧
    (msgCodes [1]).length < numBytes [1] := by
  refine ⟨fun raw _ => ?_, by decide⟩
  have hcount : (msgCodes raw).length =
      (extractGroups (bytesToInt raw >>> remBits raw) (numBytes raw)).countP
        (fun b => b == 0 || (decide (32 ≤ b) && decide (b ≤ 126))) := by
    rw [msgCodes, List.length_reverse, length_filterMap_isSome]
    simp only [groupChar_isSome]
  refine ⟨hcount, ?_, by rw [numBytes, Nat.mul_comm]⟩
  rw [hcount]
  calc (extractGroups (bytesToInt raw >>> remBits raw) (numBytes raw)).countP
        (fun b => b == 0 || (decide (32 ≤ b) && decide (b ≤ 126)))
      ≤ (extractGroups (bytesToInt raw >>> remBits raw) (numBytes raw)).length :=
        List.countP_le_length _
    _ = numBytes raw := extractGroups_length _ _

/-! ## C2 — the nearest-grid-point rounding rule -/

theorem pyRound_sub_abs_le (q : ℚ) : |(pyRound q : ℚ) - q| ≤ 1/2 := by
  have h1 : (⌊q⌋ : ℚ) ≤ q := Int.floor_le q
  have h2 : q < ⌊q⌋ + 1 := Int.lt_floor_add_one q
  simp only [pyRound]
  split_ifs with ha hb hc
  · rw [abs_le]
    constructor <;> linarith
  · rw [abs_le]
    push_cast
    constructor <;> linarith
  · have ht : q - ⌊q⌋ = 1/2 := le_antisymm (not_lt.mp hb) (not_lt.mp ha)
    rw [abs_le]
    constructor <;> linarith
  · have ht : q - ⌊q⌋ = 1/2 := le_antisymm (not_lt.mp hb) (not_lt.mp ha)
    rw [abs_le]
    push_cast
    constructor <;> linarith

theorem pyRound_tie_even (q : ℚ) (h : q - ⌊q⌋ = 1/2) : pyRound q % 2 = 0 := by
  have h1 : ¬(q - (⌊q⌋ : ℚ) < 1/2) := by rw [h]; exact lt_irrefl _
  have h2 : ¬((1 : ℚ)/2 < q - ⌊q⌋) := by rw [h]; exact lt_irrefl _
  simp only [pyRound, if_neg h1, if_neg h2]
  split_ifs with hc
  · exact hc
  · omega

/-- C2 counterexample: on the identity-projection unit-spacing message, the
query with normalized planar delta exactly `1/2` on both axes resolves to
cell index 0 (Python 3's `round` sends the tie `0.5` to the even integer 0),
whereas the claim's round-half-away-from-zero rule demands index 1. -/
theorem C2_counterexample :
    get_nearest_grid_point msgId (1/2) (1/2) = some (0, 0, 1/2, 1/2, 0, 0) ∧
    roundHalfAwayFromZero (1/2) = 1 := by
  constructor
  · have hf : ⌊(1 : ℚ)/2⌋ = 0 := by
      rw [Int.floor_eq_zero_iff]
      constructor <;> norm_num
    have hr : pyRound ((1 : ℚ)/2) = 0 := by
      simp only [pyRound, hf]
      norm_num
    simp only [get_nearest_grid_point, msgId, spacingPair]
    norm_num [hr]
  · rw [roundHalfAwayFromZero, if_pos (by norm_num)]
    have h1 : (1 : ℚ)/2 + 1/2 = 1 := by norm_num
    rw [h1, Int.floor_one]

/-- C2 (amended): whenever the selected per-axis spacing pair (the
`DxInMetres`/`DyInMetres` keys, or `DiInMetres`/`DjInMetres` when both of
the first pair are absent) is present, `get_nearest_grid_point` returns the
integer cell indices obtained by dividing the planar delta by the spacing
and rounding to the nearest integer with ties rounded half to even (Python
3's builtin `round`), not half away from zero. -/
theorem C2_round_half_even (grb : GridMessage) (lat lon dx dy : ℚ)
    (h : spacingPair grb = (some dx, some dy)) :
    nearestRoundSpec grb lat lon dx dy := by
  refine ⟨pyRound (((grb.proj lon lat).1 - (grb.proj grb.lonFirst grb.latFirst).1) / dx),
    pyRound (((grb.proj lon lat).2 - (grb.proj grb.lonFirst grb.latFirst).2) / dy),
    (grb.proj lon lat).1, (grb.proj lon lat).2, ?_, ?_, ?_, rfl, rfl, ?_, ?_, ?_, ?_⟩
  · exact (grb.projInv
      ((pyRound (((grb.proj lon lat).1 - (grb.proj grb.lonFirst grb.latFirst).1) / dx) : ℚ)
          * dx + (grb.proj grb.lonFirst grb.latFirst).1)
      ((pyRound (((grb.proj lon lat).2 - (grb.proj grb.lonFirst grb.latFirst).2) / dy) : ℚ)
          * dy + (grb.proj grb.lonFirst grb.latFirst).2)).2
  · exact (grb.projInv
      ((pyRound (((grb.proj lon lat).1 - (grb.proj grb.lonFirst grb.latFirst).1) / dx) : ℚ)
          * dx + (grb.proj grb.lonFirst grb.latFirst).1)
      ((pyRound (((grb.proj lon lat).2 - (grb.proj grb.lonFirst grb.latFirst).2) / dy) : ℚ)
          * dy + (grb.proj grb.lonFirst grb.latFirst).2)).1
  · simp only [get_nearest_grid_point, h]
  · exact pyRound_sub_abs_le _
  · exact fun ht => pyRound_tie_even _ ht
  · exact pyRound_sub_abs_le _
  · exact fun ht => pyRound_tie_even _ ht

/-- C2 witness: the amended rounding contract holds on the
identity-projection unit-spacing message at the query point `(3, 7)`. -/
theorem C2_witness : nearestRoundSpec msgId 3 7 1 1 :=
  C2_round_half_even msgId 3 7 1 1 rfl

/-! ## C3 — the valid-time enumeration -/

theorem beforeMin_eq_false (minT : Option ℤ) (t : ℤ) :
    beforeMin minT t = false ↔ ∀ m, minT = some m → m ≤ t := by
  cases minT with
  | none => simp [beforeMin]
  | some m =>
    simp only [beforeMin, decide_eq_false_iff_not, not_lt, Option.some.injEq]
    constructor
    · intro h m' hm'
      exact hm' ▸ h
    · intro h
      exact h m rfl

theorem afterMax_eq_false (maxT : Option ℤ) (t : ℤ) :
    afterMax maxT t = false ↔ ∀ M, maxT = some M → t ≤ M := by
  cases maxT with
  | none => simp [afterMax]
  | some mx =>
    simp only [afterMax, decide_eq_false_iff_not, not_lt, Option.some.injEq]
    constructor
    · intro h M hM
      exact hM ▸ h
    · intro h
      exact h mx rfl

theorem afterMax_eq_true (maxT : Option ℤ) (t : ℤ) :
    afterMax maxT t = true ↔ ∃ M, maxT = some M ∧ M < t := by
  cases maxT with
  | none => simp [afterMax]
  | some mx => simp [afterMax]

theorem validLoop_eq_filter (minT maxT : Option ℤ) :
    ∀ l : List ℤ, List.Pairwise (· < ·) l →
      validLoop minT maxT l = l.filter fun t => !beforeMin minT t && !afterMax maxT t := by
  intro l
  induction l with
  | nil => intro _; rfl
  | cons t rest ih =>
    intro hp
    rw [List.pairwise_cons] at hp
    obtain ⟨hall, hrest⟩ := hp
    simp only [validLoop]
    by_cases hb : beforeMin minT t
    · rw [if_pos hb, List.filter_cons_of_neg (by simp [hb]), ih hrest]
    · by_cases ha : afterMax maxT t
      · rw [if_neg hb, if_pos ha, List.filter_cons_of_neg (by simp [ha])]
        obtain ⟨M, hM, hMt⟩ := (afterMax_eq_true maxT t).mp ha
        rw [eq_comm, List.filter_eq_nil_iff]
        intro u hu
        have hua : afterMax maxT u = true :=
          (afterMax_eq_true maxT u).mpr ⟨M, hM, by have := hall u hu; omega⟩
        simp [hua]
      · rw [if_neg hb, if_neg ha, List.filter_cons_of_pos (by simp [hb, ha]), ih hrest]

theorem candTimes_pairwise (ft : ℤ) (step : ℕ) (hstep : 1 ≤ step) :
    List.Pairwise (· < ·) ((candOffsets step).map fun h : ℕ => dayStart ft + (h : ℤ)) := by
  rw [List.pairwise_map, candOffsets, List.pairwise_map]
  apply List.Pairwise.imp ?_ (List.pairwise_lt_range (249 / step + 1))
  intro a b hab
  have hm : a * step < b * step := mul_lt_mul_of_pos_right hab (by omega)
  omega

theorem mem_candOffsets (step h : ℕ) (hstep : 1 ≤ step) :
    h ∈ candOffsets step ↔ ∃ k, k * step ≤ 249 ∧ h = k * step := by
  rw [candOffsets]
  simp only [List.mem_map, List.mem_range]
  constructor
  · rintro ⟨k, hk, rfl⟩
    have hk2 : k ≤ 249 / step := by omega
    exact ⟨k, (Nat.le_div_iff_mul_le (by omega)).mp hk2, rfl⟩
  · rintro ⟨k, hk249, rfl⟩
    have hk2 : k ≤ 249 / step := (Nat.le_div_iff_mul_le (by omega)).mpr hk249
    exact ⟨k, by omega, rfl⟩

/-- C3 counterexample: with the forecast cycle at hour 5 of its day, the
first enumerated candidate valid time is hour 0 of that day — five hours
before the cycle start — so the enumeration does not step from the start of
the forecast cycle (which would make every candidate at least 5). -/
theorem C3_counterexample :
    validTimes 5 1 none (some 0) = [0] ∧ (0 : ℤ) < 5 := by decide

/-- C3 (amended): for every forecast cycle `ft`, step `≥ 1` and optional
window, a time is in the candidate valid-time list iff it is of the form
`dayStart ft + k·step` (stepping from *midnight of the cycle's day*, the
cycle timestamp minus its hour-of-day, not from the cycle itself) with
offset at most 249 hours, is not earlier than `min_time` (such candidates
are skipped with enumeration continuing) and not later than `max_time`
(the first such candidate ends enumeration early — equivalent to filtering,
as the candidates increase). -/
theorem C3_candidate_times (ft : ℤ) (step : ℕ) (minT maxT : Option ℤ) (t : ℤ)
    (hstep : 1 ≤ step) :
    t ∈ validTimes ft step minT maxT ↔
      ∃ k : ℕ, k * step ≤ 249 ∧ t = dayStart ft + ((k * step : ℕ) : ℤ) ∧
        (∀ m, minT = some m → m ≤ t) ∧ (∀ M, maxT = some M → t ≤ M) := by
  rw [validTimes, validLoop_eq_filter _ _ _ (candTimes_pairwise ft step hstep),
    List.mem_filter]
  simp only [List.mem_map]
  constructor
  · rintro ⟨⟨h, hh, rfl⟩, hp⟩
    simp only [Bool.and_eq_true, Bool.not_eq_true'] at hp
    obtain ⟨k, hk, rfl⟩ := (mem_candOffsets step h hstep).mp hh
    exact ⟨k, hk, rfl, (beforeMin_eq_false _ _).mp hp.1, (afterMax_eq_false _ _).mp hp.2⟩
  · rintro ⟨k, hk, rfl, hmin, hmax⟩
    refine ⟨⟨k * step, (mem_candOffsets step _ hstep).mpr ⟨k, hk, rfl⟩, rfl⟩, ?_⟩
    simp only [Bool.and_eq_true, Bool.not_eq_true']
    exact ⟨(beforeMin_eq_false _ _).mpr hmin, (afterMax_eq_false _ _).mpr hmax⟩

/-- C3 witness: hour 0 of the cycle's day is a candidate for the cycle at
hour 5 with step 1 and no window. -/
theorem C3_witness : (0 : ℤ) ∈ validTimes 5 1 none none := by
  rw [C3_candidate_times 5 1 none none 0 (by decide)]
  refine ⟨0, by decide, by decide, ?_, ?_⟩
  · intro m hm
    cases hm
  · intro M hM
    cases hM

/-! ## C9 — malformed event arity in `parse_weather_string` -/

theorem wordText_err_of_short (w : List Char) (h : (splitOnSep ':' w).length < 5) :
    wordText w = .error .indexError := by
  have hg4 : (splitOnSep ':' w).get? 4 = none := List.get?_eq_none.mpr (by omega)
  rcases hg0 : (splitOnSep ':' w).get? 0 with _ | a0 <;>
    rcases hg1 : (splitOnSep ':' w).get? 1 with _ | a1 <;>
      rcases hg2 : (splitOnSep ':' w).get? 2 with _ | a2 <;>
        rcases hg3 : (splitOnSep ':' w).get? 3 with _ | a3 <;>
          simp only [wordText, hg0, hg1, hg2, hg3, hg4]

theorem wordText_error_eq (w : List Char) (e : PyErr) (h : wordText w = .error e) :
    e = .indexError := by
  rcases hg0 : (splitOnSep ':' w).get? 0 with _ | a0 <;>
    rcases hg1 : (splitOnSep ':' w).get? 1 with _ | a1 <;>
      rcases hg2 : (splitOnSep ':' w).get? 2 with _ | a2 <;>
        rcases hg3 : (splitOnSep ':' w).get? 3 with _ | a3 <;>
          rcases hg4 : (splitOnSep ':' w).get? 4 with _ | a4 <;>
            simp only [wordText, hg0, hg1, hg2, hg3, hg4] at h <;> simp_all

theorem foldlM_processWord_err :
    ∀ (words : List (List Char)) (acc : List Char × Option ℚ),
      (∃ w ∈ words, (splitOnSep ':' w).length < 5) →
      words.foldlM processWord acc = .error .indexError := by
  intro words
  induction words with
  | nil =>
    rintro acc ⟨w, hw, _⟩
    exact absurd hw (List.not_mem_nil w)
  | cons w ws ih =>
    rintro acc ⟨u, hu, hlen⟩
    rw [List.foldlM_cons]
    rcases List.mem_cons.mp hu with rfl | hu'
    · rw [processWord, wordText_err_of_short u hlen]
      rfl
    · cases hx : wordText w with
      | error e =>
        have he := wordText_error_eq w e hx
        subst he
        rw [processWord, hx]
        rfl
      | ok r =>
        obtain ⟨ws0, pp, oo, vv⟩ := r
        rw [processWord, hx]
        exact ih _ ⟨u, hu', hlen⟩

/-- C9: any input to `parse_weather_string` containing a caret-separated
event with fewer than five colon-separated fields makes the call abort with
the uncaught `IndexError` raised by the positional field reads — the
malformed arity is neither degraded nor reported through the documented
error kinds. -/
theorem C9_short_event_index_error (wx : List Char)
    (h : ∃ w ∈ splitOnSep '^' wx, (splitOnSep ':' w).length < 5) :
    parse_weather_string wx = .error .indexError := by
  rw [parse_weather_string, foldlM_processWord_err _ _ h]

/-- C9 witness: the two-field event `"a:b"` aborts with `IndexError`. -/
theorem C9_witness : parse_weather_string ['a', ':', 'b'] = .error .indexError :=
  C9_short_event_index_error ['a', ':', 'b'] (by decide)

/-! ## C8 — weather strings whose events contribute no text -/

theorem foldlM_textless :
    ∀ (words : List (List Char)) (vis : Option ℚ) (res : List Char × Option ℚ),
      (∀ w ∈ words, ∀ r, wordText w = .ok r → r.1 = []) →
      words.foldlM processWord ([], vis) = .ok res → res.1 = [] := by
  intro words
  induction words with
  | nil =>
    intro vis res _ h
    have h2 : res = ([], vis) := by
      injection h with h2
      exact h2.symm
    rw [h2]
  | cons w ws ih =>
    intro vis res hall h
    rw [List.foldlM_cons] at h
    cases hx : wordText w with
    | error e =>
      rw [processWord, hx] at h
      have h2 : (Except.error e : Except PyErr (List Char × Option ℚ)) = .ok res := h
      exact Except.noConfusion h2
    | ok r =>
      obtain ⟨ws0, pp, oo, vv⟩ := r
      have hr1 : ws0 = [] := by
        have hq := hall w (by simp) (ws0, pp, oo, vv) hx
        simpa using hq
      subst hr1
      rw [processWord, hx] at h
      have h2 : List.foldlM processWord ([], updateVis vis vv) ws = .ok res := h
      exact ih (updateVis vis vv) res (fun w2 hw2 => hall w2 (by simp [hw2])) h2

/-- C8 (amended): whenever `parse_weather_string` succeeds and no event of
the input contributes any phrase text, the returned phrase is the
placeholder `"<NoWx>"`; in particular
`parse_weather("<NoCov>:<NoWx>:<NoInten>:<NoVis>:")` yields
`("<NoWx>", NaN)`.  (The returned visibility need not be NaN in general: a
textless event may still carry a resolvable visibility field.) -/
theorem C8_no_text_phrase (wx phrase : List Char) (vis : Option ℚ)
    (hp : parse_weather_string wx = .ok (phrase, vis))
    (h : eventsTextless wx = true) :
    phrase = noWxTok ∧ parse_weather_string noCovInput = .ok (noWxTok, none) := by
  refine ⟨?_, by decide⟩
  rw [parse_weather_string] at hp
  cases hf : (splitOnSep '^' wx).foldlM processWord ([], none) with
  | error e =>
    rw [hf] at hp
    exact Except.noConfusion hp
  | ok res =>
    obtain ⟨ws0, v⟩ := res
    rw [hf] at hp
    have hws : ws0 = [] := by
      have hargs : ∀ w ∈ splitOnSep '^' wx, ∀ r,
          wordText w = .ok r → r.1 = ([] : List Char) := by
        intro w hw r hr
        rw [eventsTextless] at h
        have hx := List.all_eq_true.mp h w hw
        rw [hr] at hx
        simpa using hx
      exact foldlM_textless (splitOnSep '^' wx) none (ws0, v) hargs hf
    subst hws
    have hp2 : (Except.ok (finalPhrase [], v) : Except PyErr _) = .ok (phrase, vis) := hp
    injection hp2 with hp3
    have hph : finalPhrase [] = phrase := congrArg Prod.fst hp3
    rw [← hph]
    rfl

/-- C8 counterexample: on `"<NoCov>:<NoWx>:<NoInten>:0SM:"` no event
contributes phrase text and the phrase is the `"<NoWx>"` placeholder, yet
the returned visibility is `0.0` (the event's visibility field resolves in
the table), not NaN — the claim's universal "the returned visibility is
NaN" fails. -/
theorem C8_counterexample :
    eventsTextless noCovVisInput = true ∧
    parse_weather_string noCovVisInput = .ok (noWxTok, some 0) ∧
    (some (0 : ℚ) ≠ (none : Option ℚ)) := by decide

/-- C8 witness: the amended theorem applied to the textless input whose
visibility field resolves to 0. -/
theorem C8_witness :
    noWxTok = noWxTok ∧ parse_weather_string noCovInput = .ok (noWxTok, none) :=
  C8_no_text_phrase noCovVisInput noWxTok (some 0) (by decide) (by decide)

/-- C10 witness: the group-count identity instantiated at the byte `0x01`. -/
theorem C10_witness :
    (msgCodes [1]).length =
      (extractGroups (bytesToInt [1] >>> remBits [1]) (numBytes [1])).countP
        (fun b => b == 0 || (decide (32 ≤ b) && decide (b ≤ 126))) ∧
    (msgCodes [1]).length ≤ numBytes [1] ∧
    numBytes [1] = (8 * ([1] : List ℕ).length - 1) / 7 :=
  C10_decoded_length.1 [1] (by decide)

end Pyndfd
